import Mathlib

/-!
Verification development for the srtm4 repository (src/srtm4/download.py).

The file embeds the single source file `srtm4/download.py` at three levels:

1. Path derivations (lines 74-97 and 128 of download.py): string-level models of
   the paths `get_srtm_tile` computes, including the `os.path.expanduser` /
   `os.path.abspath` normalization applied to `out_dir` on line 74.  The lock
   file names in the source are the constants `srtm_zip.lock` and
   `srtm_tif.lock`, joined to the normalized directory; the archive path
   (line 97) and the extraction target (line 128) use the raw `out_dir`.

2. A sequential, single-call model `get_srtm_tile` of the whole function body
   (lines 64-137), parameterized by the behavior of the external collaborators
   (whether the download raises, whether the downloaded blob is a valid zip,
   and whether the expected `.tif` member is present in it).  It records the
   event trace (lock operations, download invocation, extraction attempt,
   archive removal), the final filesystem state, the locks still held on exit,
   and the exception propagated, if any.  On every path on which the Python
   function returns, it returns `None`; this is modelled by `exc = none`.

3. A small-step concurrent model `Step`: any number of OS processes execute
   the same function body against a shared filesystem.  Each program point of
   the source is a `PC` value; one constructor of `Step` corresponds to one
   atomic filesystem access of the source.  `filelock.FileLock.acquire` blocks
   until the lock is free, creates the lock file, and takes ownership;
   `release` gives up ownership and leaves the lock file on disk.
-/

namespace Srtm4

/-! ### Path derivations (download.py lines 21, 74-97, 128) -/

def SRTM_URL : String := "s3://srtm-dems/srtm_5x5/TIFF"

/-- Model of `os.path.expanduser`: a leading `~` (the bare string or a `~/`
prefix) is replaced by the home directory; any other string, including strings
with `~` in a non-leading position, is returned unchanged.  (Expansion of
`~user` forms is not modelled; no claim depends on them.) -/
def expanduser (home : String) (p : String) : String :=
  if p = "~" then home
  else if p.data.take 2 = ['~', '/'] then home ++ String.mk (p.data.drop 1)
  else p

/-- Model of `os.path.abspath`: an absolute path (leading `/`) is returned
unchanged; a relative path is resolved against the current working directory.
(Collapsing of `.` and `..` components is not modelled; no claim depends
on it.) -/
def abspath (cwd : String) (p : String) : String :=
  if p.data.head? = some '/' then p else cwd ++ "/" ++ p

/-- Line 74: `output_dir = os.path.abspath(os.path.expanduser(out_dir))`. -/
def output_dir (home cwd out_dir : String) : String :=
  abspath cwd (expanduser home out_dir)

/-- Model of `os.path.join` for a component without separators. -/
def joinPath (d f : String) : String := d ++ "/" ++ f

/-- Line 83 (and 102): the final-artifact path tested for existence; it is
rooted at the NORMALIZED directory. -/
def tif_path (home cwd out_dir srtm_tile : String) : String :=
  joinPath (output_dir home cwd out_dir) (srtm_tile ++ ".tif")

/-- Line 80: `srtm_zip_download_lock = os.path.join(output_dir, 'srtm_zip.lock')`.
The name is a constant: it does not mention the tile identifier. -/
def srtm_zip_download_lock (home cwd out_dir : String) : String :=
  joinPath (output_dir home cwd out_dir) ("srtm_zip.lock")

/-- Line 81: `srtm_tif_write_lock = os.path.join(output_dir, 'srtm_tif.lock')`.
The name is a constant: it does not mention the tile identifier. -/
def srtm_tif_write_lock (home cwd out_dir : String) : String :=
  joinPath (output_dir home cwd out_dir) ("srtm_tif.lock")

/-- Line 97: `zip_path = os.path.join(out_dir, '{}.zip'.format(srtm_tile))`;
it is rooted at the RAW `out_dir` argument. -/
def zip_path (out_dir srtm_tile : String) : String :=
  joinPath out_dir (srtm_tile ++ ".zip")

/-- Line 128: `z.extract('{}.tif'.format(srtm_tile), out_dir)`; the extraction
target directory is the RAW `out_dir` argument. -/
def extract_dir (out_dir : String) : String := out_dir

/-- Line 95: `srtm_tile_url = '{}/{}.zip'.format(SRTM_URL, srtm_tile)`. -/
def srtm_tile_url (srtm_tile : String) : String :=
  SRTM_URL ++ "/" ++ srtm_tile ++ ".zip"

/-- The pair of lock file paths computed inside `get_srtm_tile(srtm_tile,
out_dir)` (lines 80-81).  The `srtm_tile` argument is in scope in the source
but is not used in either lock path. -/
def lock_paths (srtm_tile : String) (home cwd out_dir : String) :
    String × String :=
  (srtm_zip_download_lock home cwd out_dir, srtm_tif_write_lock home cwd out_dir)

/-! ### Sequential single-call model of get_srtm_tile (lines 64-137)

The external world is summarized by `Env`:
* `fetchFails`: the `download` call on line 116 raises one of the exception
  types named in the `except` clause on line 117 (the docstring of `download`
  names `RetryError` and `ConnectionError`);
* `valid`: the downloaded blob satisfies `zipfile.is_zipfile` (line 126);
* `member`: the member `{srtm_tile}.tif` is present in the valid archive, so
  that `z.extract` on line 128 succeeds instead of raising `KeyError`.
-/

/-- Exceptions that can escape `get_srtm_tile`. -/
inductive Exc where
  | connOrRetry
  | keyError
  deriving DecidableEq

/-- Observable events of one call, in program order. -/
inductive Ev where
  | acqZip
  | relZip
  | acqTif
  | relTif
  | fetch
  | extractAttempt
  | rmZip
  deriving DecidableEq

/-- Behavior of the external collaborators (remote store and archive
contents), fixed for a run. -/
structure Env where
  fetchFails : Bool
  valid : Bool
  member : Bool
  deriving DecidableEq

/-- Filesystem state relevant to one sequential call: existence of the final
artifact `{tile}.tif`, of the archive `{tile}.zip`, and of the tif lock file. -/
structure SeqIn where
  tif : Bool
  zip : Bool
  tifLockFile : Bool
  deriving DecidableEq

/-- Result of one sequential call: final filesystem state, the locks still
held by the call when it terminates, the exception propagated (`none` means
the function returned, and the Python return value is always `None`), and the
event trace. -/
structure SeqOut where
  tif : Bool
  zip : Bool
  tifLockFile : Bool
  zipHeld : Bool
  tifHeld : Bool
  exc : Option Exc
  trace : List Ev
  deriving DecidableEq

/-- Sequential model of `get_srtm_tile` (download.py lines 64-137), one call
running alone.  The re-check on lines 102-108 is executed but, with no other
process running, `tif` cannot have changed since line 83, so its branch is
never taken in this model; it is exercised in the concurrent model below.
The `if os.path.exists(zip_path)` on lines 111-113 only prints a message: the
download on line 116 is invoked unconditionally afterwards.  On a `KeyError`
from `z.extract` (archive valid, member absent) the function aborts before
`os.remove` (line 133) and before both releases (lines 136-137), so the
archive stays on disk and both locks stay held.  On a fetch failure, lines
117-119 release the zip lock and re-raise; the destination file is not to be
trusted and is modelled as unchanged. -/
def get_srtm_tile (e : Env) (s : SeqIn) : SeqOut :=
  if s.tif then
    -- lines 83-91: fast path, the final artifact already exists
    if s.tifLockFile then
      { tif := s.tif, zip := s.zip, tifLockFile := true,
        zipHeld := false, tifHeld := false, exc := none,
        trace := [Ev.acqTif, Ev.relTif] }
    else
      { tif := s.tif, zip := s.zip, tifLockFile := s.tifLockFile,
        zipHeld := false, tifHeld := false, exc := none,
        trace := [] }
  else
    -- lines 100-113: acquire zip lock; re-check (not taken: tif unchanged);
    -- note a pre-existing archive (print only); then download
    if e.fetchFails then
      { tif := s.tif, zip := s.zip, tifLockFile := s.tifLockFile,
        zipHeld := false, tifHeld := false, exc := some Exc.connOrRetry,
        trace := [Ev.acqZip, Ev.fetch, Ev.relZip] }
    else
      -- lines 122-123: acquire tif lock (creates the lock file)
      if e.valid then
        if e.member then
          -- lines 126-128, 133, 136-137: extract, remove zip, release locks
          { tif := true, zip := false, tifLockFile := true,
            zipHeld := false, tifHeld := false, exc := none,
            trace := [Ev.acqZip, Ev.fetch, Ev.acqTif, Ev.extractAttempt,
                      Ev.rmZip, Ev.relTif, Ev.relZip] }
        else
          -- line 128 raises KeyError: nothing after it runs
          { tif := s.tif, zip := true, tifLockFile := true,
            zipHeld := true, tifHeld := true, exc := some Exc.keyError,
            trace := [Ev.acqZip, Ev.fetch, Ev.acqTif, Ev.extractAttempt] }
      else
        -- lines 129-130 print unavailability; 133, 136-137 still run
        { tif := s.tif, zip := false, tifLockFile := true,
          zipHeld := false, tifHeld := false, exc := none,
          trace := [Ev.acqZip, Ev.fetch, Ev.acqTif, Ev.extractAttempt,
                    Ev.rmZip, Ev.relTif, Ev.relZip] }

/-! ### Concurrent small-step model

Any number of processes (identified by `Nat`) run the body of `get_srtm_tile`
for the same tile and output directory against a shared filesystem.  One
`Step` constructor corresponds to one atomic filesystem access of the source;
pure computation and `print` calls are folded into the neighboring access.
`downloads` counts invocations of the Fetcher (`download`, line 116).
Lock acquisition is blocking: an acquire step is enabled only when the lock is
free.  Releasing a `filelock.FileLock` leaves its lock file on disk. -/

/-- Value a finished call ends with: a normal return (the Python function
always returns `None`), or a propagated exception. -/
inductive Ret where
  | ok
  | connErr
  | keyErr
  deriving DecidableEq

/-- Program points of the body of `get_srtm_tile`, named after the next
filesystem access the process will perform. -/
inductive PC where
  | start           -- about to test final-artifact existence (line 83)
  | fastCheckLock   -- artifact seen; about to test lock-file existence (line 87)
  | fastAcquireTif  -- about to acquire the tif lock (line 89)
  | fastReleaseTif  -- holding the tif lock; about to release it (line 90)
  | awaitZipLock    -- about to acquire the zip lock (line 101)
  | recheck         -- holding the zip lock; about to re-test the artifact (line 102)
  | fetch           -- about to call download (line 116)
  | awaitTifLock    -- about to acquire the tif lock (line 123)
  | extract         -- holding both locks; about to test/extract the archive (lines 126-128)
  | removeZip       -- about to os.remove the archive (line 133)
  | releaseTif      -- about to release the tif lock (line 136)
  | releaseZip      -- about to release the zip lock (line 137)
  | done (r : Ret)  -- call finished
  deriving DecidableEq

/-- Shared filesystem (plus the download counter used to state the claims). -/
structure FS where
  tif : Bool
  zip : Bool
  tifLockFile : Bool
  zipLockHeld : Option Nat
  tifLockHeld : Option Nat
  downloads : Nat
  deriving DecidableEq

/-- Global configuration: the filesystem and each process's program point. -/
structure Cfg where
  fs : FS
  procs : Nat → PC

/-- Initial configuration: empty cache, no lock files, all processes about to
enter `get_srtm_tile`. -/
def initCfg : Cfg :=
  { fs := { tif := false, zip := false, tifLockFile := false,
            zipLockHeld := none, tifLockHeld := none, downloads := 0 },
    procs := fun _ => PC.start }

/-- One atomic step of one process, following download.py line by line. -/
inductive Step (e : Env) : Cfg → Cfg → Prop where
  | startHit (c : Cfg) (p : Nat) :
      c.procs p = PC.start → c.fs.tif = true →
      Step e c { c with procs := Function.update c.procs p PC.fastCheckLock }
  | startMiss (c : Cfg) (p : Nat) :
      c.procs p = PC.start → c.fs.tif = false →
      Step e c { c with procs := Function.update c.procs p PC.awaitZipLock }
  | fastLockSeen (c : Cfg) (p : Nat) :
      c.procs p = PC.fastCheckLock → c.fs.tifLockFile = true →
      Step e c { c with procs := Function.update c.procs p PC.fastAcquireTif }
  | fastLockAbsent (c : Cfg) (p : Nat) :
      c.procs p = PC.fastCheckLock → c.fs.tifLockFile = false →
      Step e c { c with procs := Function.update c.procs p (PC.done Ret.ok) }
  | fastAcqTif (c : Cfg) (p : Nat) :
      c.procs p = PC.fastAcquireTif → c.fs.tifLockHeld = none →
      Step e c { c with
        fs := { c.fs with tifLockHeld := some p, tifLockFile := true },
        procs := Function.update c.procs p PC.fastReleaseTif }
  | fastRelTif (c : Cfg) (p : Nat) :
      c.procs p = PC.fastReleaseTif →
      Step e c { c with
        fs := { c.fs with tifLockHeld := none },
        procs := Function.update c.procs p (PC.done Ret.ok) }
  | acqZip (c : Cfg) (p : Nat) :
      c.procs p = PC.awaitZipLock → c.fs.zipLockHeld = none →
      Step e c { c with
        fs := { c.fs with zipLockHeld := some p },
        procs := Function.update c.procs p PC.recheck }
  | recheckHit (c : Cfg) (p : Nat) :
      c.procs p = PC.recheck → c.fs.tif = true →
      Step e c { c with
        fs := { c.fs with zipLockHeld := none },
        procs := Function.update c.procs p (PC.done Ret.ok) }
  | recheckMiss (c : Cfg) (p : Nat) :
      c.procs p = PC.recheck → c.fs.tif = false →
      Step e c { c with procs := Function.update c.procs p PC.fetch }
  | fetchOk (c : Cfg) (p : Nat) :
      c.procs p = PC.fetch → e.fetchFails = false →
      Step e c { c with
        fs := { c.fs with zip := true, downloads := c.fs.downloads + 1 },
        procs := Function.update c.procs p PC.awaitTifLock }
  | fetchFail (c : Cfg) (p : Nat) :
      c.procs p = PC.fetch → e.fetchFails = true →
      Step e c { c with
        fs := { c.fs with zipLockHeld := none, downloads := c.fs.downloads + 1 },
        procs := Function.update c.procs p (PC.done Ret.connErr) }
  | acqTif (c : Cfg) (p : Nat) :
      c.procs p = PC.awaitTifLock → c.fs.tifLockHeld = none →
      Step e c { c with
        fs := { c.fs with tifLockHeld := some p, tifLockFile := true },
        procs := Function.update c.procs p PC.extract }
  | extractValid (c : Cfg) (p : Nat) :
      c.procs p = PC.extract → e.valid = true → e.member = true →
      Step e c { c with
        fs := { c.fs with tif := true },
        procs := Function.update c.procs p PC.removeZip }
  | extractMissing (c : Cfg) (p : Nat) :
      c.procs p = PC.extract → e.valid = true → e.member = false →
      Step e c { c with procs := Function.update c.procs p (PC.done Ret.keyErr) }
  | extractInvalid (c : Cfg) (p : Nat) :
      c.procs p = PC.extract → e.valid = false →
      Step e c { c with procs := Function.update c.procs p PC.removeZip }
  | rmZip (c : Cfg) (p : Nat) :
      c.procs p = PC.removeZip →
      Step e c { c with
        fs := { c.fs with zip := false },
        procs := Function.update c.procs p PC.releaseTif }
  | relTif (c : Cfg) (p : Nat) :
      c.procs p = PC.releaseTif →
      Step e c { c with
        fs := { c.fs with tifLockHeld := none },
        procs := Function.update c.procs p PC.releaseZip }
  | relZip (c : Cfg) (p : Nat) :
      c.procs p = PC.releaseZip →
      Step e c { c with
        fs := { c.fs with zipLockHeld := none },
        procs := Function.update c.procs p (PC.done Ret.ok) }

/-- Configurations reachable from the empty-cache initial configuration. -/
def Reachable (e : Env) (c : Cfg) : Prop :=
  Relation.ReflTransGen (Step e) initCfg c

/-! ### Program-point classifiers used by the invariant -/

/-- Program points at which the process owns the zip download lock.  A process
that dies on `KeyError` (line 128) never reaches the releases on lines
136-137, so it still owns the lock in its terminal state. -/
def holdsZipPC : PC → Bool
  | PC.recheck | PC.fetch | PC.awaitTifLock | PC.extract
  | PC.removeZip | PC.releaseTif | PC.releaseZip | PC.done Ret.keyErr => true
  | _ => false

/-- Program points at which the process owns the tif write lock. -/
def holdsTifPC : PC → Bool
  | PC.fastReleaseTif | PC.extract | PC.removeZip
  | PC.releaseTif | PC.done Ret.keyErr => true
  | _ => false

/-- Program points a process can only occupy while the final artifact does not
exist yet. -/
def preTifPC : PC → Bool
  | PC.fetch | PC.awaitTifLock | PC.extract => true
  | _ => false

/-- Program points the current zip-lock owner can occupy while the archive
file exists on disk. -/
def zipHolderPC : PC → Bool
  | PC.awaitTifLock | PC.extract | PC.removeZip | PC.done Ret.keyErr => true
  | _ => false

/-- Fast-path program points, only reachable after observing the artifact. -/
def fastPC : PC → Bool
  | PC.fastCheckLock | PC.fastAcquireTif | PC.fastReleaseTif => true
  | _ => false

/-- Inductive invariant of the protocol, for every environment. -/
structure Inv (c : Cfg) : Prop where
  zipOwn : ∀ p, holdsZipPC (c.procs p) = true → c.fs.zipLockHeld = some p
  tifOwn : ∀ p, holdsTifPC (c.procs p) = true → c.fs.tifLockHeld = some p
  noTif : ∀ p, preTifPC (c.procs p) = true → c.fs.tif = false
  zipTracked : c.fs.zip = true →
    ∃ p, c.fs.zipLockHeld = some p ∧ zipHolderPC (c.procs p) = true
  fastTif : ∀ p, fastPC (c.procs p) = true → c.fs.tif = true
  lockFile : ∀ p, c.fs.tifLockHeld = some p → c.fs.tifLockFile = true
  relOrder : ∀ p, c.procs p = PC.releaseZip → c.fs.tifLockHeld ≠ some p

/-- Environment in which every fetch succeeds and the remote blob is a valid
archive containing the expected member. -/
def envOK : Env := { fetchFails := false, valid := true, member := true }

/-- Environment in which every fetch succeeds but the remote blob is not a
valid archive. -/
def envBad : Env := { fetchFails := false, valid := false, member := true }

/-- Environment in which every fetch succeeds and the blob is a valid archive
that does not contain the expected `.tif` member. -/
def envNoMember : Env := { fetchFails := false, valid := true, member := false }

/-- Additional inductive invariant under `envOK`: the download on line 116 is
reached at most once across all processes. -/
structure InvOK (c : Cfg) : Prop where
  dcount : c.fs.downloads ≤ 1
  dstate : c.fs.downloads = 1 → c.fs.tif = true ∨
    ∃ p, c.fs.zipLockHeld = some p ∧
      (c.procs p = PC.awaitTifLock ∨ c.procs p = PC.extract)

/-! ### Concrete executions used as witnesses and counterexamples

`w0`-`w9`: one process runs the full download-and-extract path under `envOK`.
`b0`-`b13`: under `envBad` (blob not a valid archive) a first process runs the
full path, leaves no artifact, and a second process then downloads again. -/

abbrev w0 : Cfg := initCfg
abbrev w1 : Cfg := { w0 with procs := Function.update w0.procs 0 PC.awaitZipLock }
abbrev w2 : Cfg := { w1 with
  fs := { w1.fs with zipLockHeld := some 0 },
  procs := Function.update w1.procs 0 PC.recheck }
abbrev w3 : Cfg := { w2 with procs := Function.update w2.procs 0 PC.fetch }
abbrev w4 : Cfg := { w3 with
  fs := { w3.fs with zip := true, downloads := w3.fs.downloads + 1 },
  procs := Function.update w3.procs 0 PC.awaitTifLock }
abbrev w5 : Cfg := { w4 with
  fs := { w4.fs with tifLockHeld := some 0, tifLockFile := true },
  procs := Function.update w4.procs 0 PC.extract }
abbrev w6 : Cfg := { w5 with
  fs := { w5.fs with tif := true },
  procs := Function.update w5.procs 0 PC.removeZip }
abbrev w7 : Cfg := { w6 with
  fs := { w6.fs with zip := false },
  procs := Function.update w6.procs 0 PC.releaseTif }
abbrev w8 : Cfg := { w7 with
  fs := { w7.fs with tifLockHeld := none },
  procs := Function.update w7.procs 0 PC.releaseZip }
abbrev w9 : Cfg := { w8 with
  fs := { w8.fs with zipLockHeld := none },
  procs := Function.update w8.procs 0 (PC.done Ret.ok) }

abbrev b0 : Cfg := initCfg
abbrev b1 : Cfg := { b0 with procs := Function.update b0.procs 0 PC.awaitZipLock }
abbrev b2 : Cfg := { b1 with procs := Function.update b1.procs 1 PC.awaitZipLock }
abbrev b3 : Cfg := { b2 with
  fs := { b2.fs with zipLockHeld := some 0 },
  procs := Function.update b2.procs 0 PC.recheck }
abbrev b4 : Cfg := { b3 with procs := Function.update b3.procs 0 PC.fetch }
abbrev b5 : Cfg := { b4 with
  fs := { b4.fs with zip := true, downloads := b4.fs.downloads + 1 },
  procs := Function.update b4.procs 0 PC.awaitTifLock }
abbrev b6 : Cfg := { b5 with
  fs := { b5.fs with tifLockHeld := some 0, tifLockFile := true },
  procs := Function.update b5.procs 0 PC.extract }
abbrev b7 : Cfg := { b6 with procs := Function.update b6.procs 0 PC.removeZip }
abbrev b8 : Cfg := { b7 with
  fs := { b7.fs with zip := false },
  procs := Function.update b7.procs 0 PC.releaseTif }
abbrev b9 : Cfg := { b8 with
  fs := { b8.fs with tifLockHeld := none },
  procs := Function.update b8.procs 0 PC.releaseZip }
abbrev b10 : Cfg := { b9 with
  fs := { b9.fs with zipLockHeld := none },
  procs := Function.update b9.procs 0 (PC.done Ret.ok) }
abbrev b11 : Cfg := { b10 with
  fs := { b10.fs with zipLockHeld := some 1 },
  procs := Function.update b10.procs 1 PC.recheck }
abbrev b12 : Cfg := { b11 with procs := Function.update b11.procs 1 PC.fetch }
abbrev b13 : Cfg := { b12 with
  fs := { b12.fs with zip := true, downloads := b12.fs.downloads + 1 },
  procs := Function.update b12.procs 1 PC.awaitTifLock }

/-- Configuration with process 0 holding the zip lock at the re-check
(line 102) while the final artifact has meanwhile appeared. -/
abbrev cRecheck : Cfg :=
  { fs := { tif := true, zip := false, tifLockFile := true,
            zipLockHeld := some 0, tifLockHeld := none, downloads := 0 },
    procs := Function.update (fun _ => PC.start) 0 PC.recheck }

/-- The configuration `cRecheck` steps to: the zip lock is released and the
call returns. -/
abbrev cRecheck' : Cfg :=
  { cRecheck with
    fs := { cRecheck.fs with zipLockHeld := none },
    procs := Function.update cRecheck.procs 0 (PC.done Ret.ok) }

/-! ### Invariant proofs -/

theorem update_classifier {f : Nat → PC} {p q : Nat} {v : PC} {g : PC → Bool}
    (h : g (Function.update f p v q) = true) :
    (q = p ∧ g v = true) ∨ (q ≠ p ∧ g (f q) = true) := by
  rcases eq_or_ne q p with rfl | hne
  · rw [Function.update_same] at h
    exact Or.inl ⟨rfl, h⟩
  · rw [Function.update_noteq hne] at h
    exact Or.inr ⟨hne, h⟩

theorem update_eq_cases {f : Nat → PC} {p q : Nat} {v w : PC}
    (h : Function.update f p v q = w) :
    (q = p ∧ v = w) ∨ (q ≠ p ∧ f q = w) := by
  rcases eq_or_ne q p with rfl | hne
  · rw [Function.update_same] at h
    exact Or.inl ⟨rfl, h⟩
  · rw [Function.update_noteq hne] at h
    exact Or.inr ⟨hne, h⟩

theorem update_classifier_self {f : Nat → PC} {p : Nat} {v : PC}
    {g : PC → Bool} (h : g v = true) :
    g (Function.update f p v p) = true := by
  rw [Function.update_same]
  exact h

theorem update_classifier_other {f : Nat → PC} {p q : Nat} {v : PC}
    {g : PC → Bool} (hne : q ≠ p) (h : g (f q) = true) :
    g (Function.update f p v q) = true := by
  rw [Function.update_noteq hne]
  exact h

theorem classifier_of_pc {c : Cfg} {p : Nat} {pc : PC} {g : PC → Bool}
    (hq : c.procs p = pc) (h : g pc = true) : g (c.procs p) = true := by
  rw [hq]
  exact h

theorem preTifPC_holdsZip {pc : PC} (h : preTifPC pc = true) :
    holdsZipPC pc = true := by
  revert h
  cases pc <;> try decide
  rename_i r
  cases r <;> decide

theorem zipHolderPC_cases {pc : PC} (h : zipHolderPC pc = true) :
    pc = PC.awaitTifLock ∨ pc = PC.extract ∨ pc = PC.removeZip ∨
      pc = PC.done Ret.keyErr := by
  revert h
  cases pc <;> try decide
  rename_i r
  cases r <;> decide

theorem zip_owner_unique {c : Cfg} (hinv : Inv c) {p q : Nat}
    (hp : holdsZipPC (c.procs p) = true) (hq : holdsZipPC (c.procs q) = true) :
    p = q := by
  have h1 := hinv.zipOwn p hp
  have h2 := hinv.zipOwn q hq
  rw [h1] at h2
  exact Option.some.inj h2

theorem tif_owner_unique {c : Cfg} (hinv : Inv c) {p q : Nat}
    (hp : holdsTifPC (c.procs p) = true) (hq : holdsTifPC (c.procs q) = true) :
    p = q := by
  have h1 := hinv.tifOwn p hp
  have h2 := hinv.tifOwn q hq
  rw [h1] at h2
  exact Option.some.inj h2

theorem inv_init : Inv initCfg :=
  ⟨fun _ h => Bool.noConfusion h,
   fun _ h => Bool.noConfusion h,
   fun _ h => Bool.noConfusion h,
   fun h => Bool.noConfusion h,
   fun _ h => Bool.noConfusion h,
   fun _ h => Option.noConfusion h,
   fun _ h => PC.noConfusion h⟩

theorem inv_step {e : Env} {c c' : Cfg} (hinv : Inv c) (hs : Step e c c') :
    Inv c' := by
  cases hs with
  | startHit q hq hcond =>
      refine ⟨?_, ?_, ?_, ?_, ?_, ?_, ?_⟩
      · intro p hp
        rcases update_classifier hp with ⟨rfl, hv⟩ | ⟨_, hp'⟩
        · exact Bool.noConfusion hv
        · exact hinv.zipOwn p hp'
      · intro p hp
        rcases update_classifier hp with ⟨rfl, hv⟩ | ⟨_, hp'⟩
        · exact Bool.noConfusion hv
        · exact hinv.tifOwn p hp'
      · intro p hp
        rcases update_classifier hp with ⟨rfl, hv⟩ | ⟨_, hp'⟩
        · exact Bool.noConfusion hv
        · exact hinv.noTif p hp'
      · intro hzip
        obtain ⟨r, h1, h2⟩ := hinv.zipTracked hzip
        refine ⟨r, h1, ?_⟩
        rcases eq_or_ne r q with rfl | hne
        · rw [hq] at h2
          exact Bool.noConfusion h2
        · exact update_classifier_other hne h2
      · intro p hp
        rcases update_classifier hp with ⟨rfl, _⟩ | ⟨_, hp'⟩
        · exact hcond
        · exact hinv.fastTif p hp'
      · intro p hp
        exact hinv.lockFile p hp
      · intro p hp
        rcases update_eq_cases hp with ⟨rfl, hv⟩ | ⟨_, hp'⟩
        · exact PC.noConfusion hv
        · exact hinv.relOrder p hp'
  | startMiss q hq hcond =>
      refine ⟨?_, ?_, ?_, ?_, ?_, ?_, ?_⟩
      · intro p hp
        rcases update_classifier hp with ⟨rfl, hv⟩ | ⟨_, hp'⟩
        · exact Bool.noConfusion hv
        · exact hinv.zipOwn p hp'
      · intro p hp
        rcases update_classifier hp with ⟨rfl, hv⟩ | ⟨_, hp'⟩
        · exact Bool.noConfusion hv
        · exact hinv.tifOwn p hp'
      · intro p hp
        rcases update_classifier hp with ⟨rfl, hv⟩ | ⟨_, hp'⟩
        · exact Bool.noConfusion hv
        · exact hinv.noTif p hp'
      · intro hzip
        obtain ⟨r, h1, h2⟩ := hinv.zipTracked hzip
        refine ⟨r, h1, ?_⟩
        rcases eq_or_ne r q with rfl | hne
        · rw [hq] at h2
          exact Bool.noConfusion h2
        · exact update_classifier_other hne h2
      · intro p hp
        rcases update_classifier hp with ⟨rfl, hv⟩ | ⟨_, hp'⟩
        · exact Bool.noConfusion hv
        · exact hinv.fastTif p hp'
      · intro p hp
        exact hinv.lockFile p hp
      · intro p hp
        rcases update_eq_cases hp with ⟨rfl, hv⟩ | ⟨_, hp'⟩
        · exact PC.noConfusion hv
        · exact hinv.relOrder p hp'
  | fastLockSeen q hq hcond =>
      refine ⟨?_, ?_, ?_, ?_, ?_, ?_, ?_⟩
      · intro p hp
        rcases update_classifier hp with ⟨rfl, hv⟩ | ⟨_, hp'⟩
        · exact Bool.noConfusion hv
        · exact hinv.zipOwn p hp'
      · intro p hp
        rcases update_classifier hp with ⟨rfl, hv⟩ | ⟨_, hp'⟩
        · exact Bool.noConfusion hv
        · exact hinv.tifOwn p hp'
      · intro p hp
        rcases update_classifier hp with ⟨rfl, hv⟩ | ⟨_, hp'⟩
        · exact Bool.noConfusion hv
        · exact hinv.noTif p hp'
      · intro hzip
        obtain ⟨r, h1, h2⟩ := hinv.zipTracked hzip
        refine ⟨r, h1, ?_⟩
        rcases eq_or_ne r q with rfl | hne
        · rw [hq] at h2
          exact Bool.noConfusion h2
        · exact update_classifier_other hne h2
      · intro p hp
        rcases update_classifier hp with ⟨rfl, _⟩ | ⟨_, hp'⟩
        · exact hinv.fastTif p (classifier_of_pc hq rfl)
        · exact hinv.fastTif p hp'
      · intro p hp
        exact hinv.lockFile p hp
      · intro p hp
        rcases update_eq_cases hp with ⟨rfl, hv⟩ | ⟨_, hp'⟩
        · exact PC.noConfusion hv
        · exact hinv.relOrder p hp'
  | fastLockAbsent q hq hcond =>
      refine ⟨?_, ?_, ?_, ?_, ?_, ?_, ?_⟩
      · intro p hp
        rcases update_classifier hp with ⟨rfl, hv⟩ | ⟨_, hp'⟩
        · exact Bool.noConfusion hv
        · exact hinv.zipOwn p hp'
      · intro p hp
        rcases update_classifier hp with ⟨rfl, hv⟩ | ⟨_, hp'⟩
        · exact Bool.noConfusion hv
        · exact hinv.tifOwn p hp'
      · intro p hp
        rcases update_classifier hp with ⟨rfl, hv⟩ | ⟨_, hp'⟩
        · exact Bool.noConfusion hv
        · exact hinv.noTif p hp'
      · intro hzip
        obtain ⟨r, h1, h2⟩ := hinv.zipTracked hzip
        refine ⟨r, h1, ?_⟩
        rcases eq_or_ne r q with rfl | hne
        · rw [hq] at h2
          exact Bool.noConfusion h2
        · exact update_classifier_other hne h2
      · intro p hp
        rcases update_classifier hp with ⟨rfl, hv⟩ | ⟨_, hp'⟩
        · exact Bool.noConfusion hv
        · exact hinv.fastTif p hp'
      · intro p hp
        exact hinv.lockFile p hp
      · intro p hp
        rcases update_eq_cases hp with ⟨rfl, hv⟩ | ⟨_, hp'⟩
        · exact PC.noConfusion hv
        · exact hinv.relOrder p hp'
  | fastAcqTif q hq hcond =>
      refine ⟨?_, ?_, ?_, ?_, ?_, ?_, ?_⟩
      · intro p hp
        rcases update_classifier hp with ⟨rfl, hv⟩ | ⟨_, hp'⟩
        · exact Bool.noConfusion hv
        · exact hinv.zipOwn p hp'
      · intro p hp
        rcases update_classifier hp with ⟨rfl, _⟩ | ⟨_, hp'⟩
        · rfl
        · have h0 := hinv.tifOwn p hp'
          rw [hcond] at h0
          exact Option.noConfusion h0
      · intro p hp
        rcases update_classifier hp with ⟨rfl, hv⟩ | ⟨_, hp'⟩
        · exact Bool.noConfusion hv
        · exact hinv.noTif p hp'
      · intro hzip
        obtain ⟨r, h1, h2⟩ := hinv.zipTracked hzip
        refine ⟨r, h1, ?_⟩
        rcases eq_or_ne r q with rfl | hne
        · rw [hq] at h2
          exact Bool.noConfusion h2
        · exact update_classifier_other hne h2
      · intro p hp
        rcases update_classifier hp with ⟨rfl, _⟩ | ⟨_, hp'⟩
        · exact hinv.fastTif p (classifier_of_pc hq rfl)
        · exact hinv.fastTif p hp'
      · intro p _
        rfl
      · intro p hp
        rcases update_eq_cases hp with ⟨rfl, hv⟩ | ⟨hne, _⟩
        · exact PC.noConfusion hv
        · exact fun heq => hne (Option.some.inj heq).symm
  | fastRelTif q hq =>
      refine ⟨?_, ?_, ?_, ?_, ?_, ?_, ?_⟩
      · intro p hp
        rcases update_classifier hp with ⟨rfl, hv⟩ | ⟨_, hp'⟩
        · exact Bool.noConfusion hv
        · exact hinv.zipOwn p hp'
      · intro p hp
        rcases update_classifier hp with ⟨rfl, hv⟩ | ⟨hne, hp'⟩
        · exact Bool.noConfusion hv
        · exact absurd (tif_owner_unique hinv hp' (classifier_of_pc hq rfl)) hne
      · intro p hp
        rcases update_classifier hp with ⟨rfl, hv⟩ | ⟨_, hp'⟩
        · exact Bool.noConfusion hv
        · exact hinv.noTif p hp'
      · intro hzip
        obtain ⟨r, h1, h2⟩ := hinv.zipTracked hzip
        refine ⟨r, h1, ?_⟩
        rcases eq_or_ne r q with rfl | hne
        · rw [hq] at h2
          exact Bool.noConfusion h2
        · exact update_classifier_other hne h2
      · intro p hp
        rcases update_classifier hp with ⟨rfl, hv⟩ | ⟨_, hp'⟩
        · exact Bool.noConfusion hv
        · exact hinv.fastTif p hp'
      · intro p hp
        exact Option.noConfusion hp
      · intro p hp
        rcases update_eq_cases hp with ⟨rfl, hv⟩ | ⟨_, _⟩
        · exact PC.noConfusion hv
        · exact fun heq => Option.noConfusion heq
  | acqZip q hq hcond =>
      refine ⟨?_, ?_, ?_, ?_, ?_, ?_, ?_⟩
      · intro p hp
        rcases update_classifier hp with ⟨rfl, _⟩ | ⟨_, hp'⟩
        · rfl
        · have h0 := hinv.zipOwn p hp'
          rw [hcond] at h0
          exact Option.noConfusion h0
      · intro p hp
        rcases update_classifier hp with ⟨rfl, hv⟩ | ⟨_, hp'⟩
        · exact Bool.noConfusion hv
        · exact hinv.tifOwn p hp'
      · intro p hp
        rcases update_classifier hp with ⟨rfl, hv⟩ | ⟨_, hp'⟩
        · exact Bool.noConfusion hv
        · exact hinv.noTif p hp'
      · intro hzip
        obtain ⟨r, h1, _⟩ := hinv.zipTracked hzip
        rw [hcond] at h1
        exact Option.noConfusion h1
      · intro p hp
        rcases update_classifier hp with ⟨rfl, hv⟩ | ⟨_, hp'⟩
        · exact Bool.noConfusion hv
        · exact hinv.fastTif p hp'
      · intro p hp
        exact hinv.lockFile p hp
      · intro p hp
        rcases update_eq_cases hp with ⟨rfl, hv⟩ | ⟨_, hp'⟩
        · exact PC.noConfusion hv
        · exact hinv.relOrder p hp'
  | recheckHit q hq hcond =>
      refine ⟨?_, ?_, ?_, ?_, ?_, ?_, ?_⟩
      · intro p hp
        rcases update_classifier hp with ⟨rfl, hv⟩ | ⟨hne, hp'⟩
        · exact Bool.noConfusion hv
        · exact absurd (zip_owner_unique hinv hp' (classifier_of_pc hq rfl)) hne
      · intro p hp
        rcases update_classifier hp with ⟨rfl, hv⟩ | ⟨_, hp'⟩
        · exact Bool.noConfusion hv
        · exact hinv.tifOwn p hp'
      · intro p hp
        rcases update_classifier hp with ⟨rfl, hv⟩ | ⟨_, hp'⟩
        · exact Bool.noConfusion hv
        · exact hinv.noTif p hp'
      · intro hzip
        obtain ⟨r, h1, h2⟩ := hinv.zipTracked hzip
        have hzo := hinv.zipOwn q (classifier_of_pc hq rfl)
        rw [hzo] at h1
        have hrq : q = r := Option.some.inj h1
        rw [← hrq, hq] at h2
        exact Bool.noConfusion h2
      · intro p hp
        rcases update_classifier hp with ⟨rfl, hv⟩ | ⟨_, hp'⟩
        · exact Bool.noConfusion hv
        · exact hinv.fastTif p hp'
      · intro p hp
        exact hinv.lockFile p hp
      · intro p hp
        rcases update_eq_cases hp with ⟨rfl, hv⟩ | ⟨_, hp'⟩
        · exact PC.noConfusion hv
        · exact hinv.relOrder p hp'
  | recheckMiss q hq hcond =>
      refine ⟨?_, ?_, ?_, ?_, ?_, ?_, ?_⟩
      · intro p hp
        rcases update_classifier hp with ⟨rfl, _⟩ | ⟨_, hp'⟩
        · exact hinv.zipOwn p (classifier_of_pc hq rfl)
        · exact hinv.zipOwn p hp'
      · intro p hp
        rcases update_classifier hp with ⟨rfl, hv⟩ | ⟨_, hp'⟩
        · exact Bool.noConfusion hv
        · exact hinv.tifOwn p hp'
      · intro p hp
        rcases update_classifier hp with ⟨rfl, _⟩ | ⟨_, hp'⟩
        · exact hcond
        · exact hinv.noTif p hp'
      · intro hzip
        obtain ⟨r, h1, h2⟩ := hinv.zipTracked hzip
        refine ⟨r, h1, ?_⟩
        rcases eq_or_ne r q with rfl | hne
        · rw [hq] at h2
          exact Bool.noConfusion h2
        · exact update_classifier_other hne h2
      · intro p hp
        rcases update_classifier hp with ⟨rfl, hv⟩ | ⟨_, hp'⟩
        · exact Bool.noConfusion hv
        · exact hinv.fastTif p hp'
      · intro p hp
        exact hinv.lockFile p hp
      · intro p hp
        rcases update_eq_cases hp with ⟨rfl, hv⟩ | ⟨_, hp'⟩
        · exact PC.noConfusion hv
        · exact hinv.relOrder p hp'
  | fetchOk q hq hcond =>
      refine ⟨?_, ?_, ?_, ?_, ?_, ?_, ?_⟩
      · intro p hp
        rcases update_classifier hp with ⟨rfl, _⟩ | ⟨_, hp'⟩
        · exact hinv.zipOwn p (classifier_of_pc hq rfl)
        · exact hinv.zipOwn p hp'
      · intro p hp
        rcases update_classifier hp with ⟨rfl, hv⟩ | ⟨_, hp'⟩
        · exact Bool.noConfusion hv
        · exact hinv.tifOwn p hp'
      · intro p hp
        rcases update_classifier hp with ⟨rfl, _⟩ | ⟨_, hp'⟩
        · exact hinv.noTif p (classifier_of_pc hq rfl)
        · exact hinv.noTif p hp'
      · intro _
        exact ⟨q, hinv.zipOwn q (classifier_of_pc hq rfl), update_classifier_self rfl⟩
      · intro p hp
        rcases update_classifier hp with ⟨rfl, hv⟩ | ⟨_, hp'⟩
        · exact Bool.noConfusion hv
        · exact hinv.fastTif p hp'
      · intro p hp
        exact hinv.lockFile p hp
      · intro p hp
        rcases update_eq_cases hp with ⟨rfl, hv⟩ | ⟨_, hp'⟩
        · exact PC.noConfusion hv
        · exact hinv.relOrder p hp'
  | fetchFail q hq hcond =>
      refine ⟨?_, ?_, ?_, ?_, ?_, ?_, ?_⟩
      · intro p hp
        rcases update_classifier hp with ⟨rfl, hv⟩ | ⟨hne, hp'⟩
        · exact Bool.noConfusion hv
        · exact absurd (zip_owner_unique hinv hp' (classifier_of_pc hq rfl)) hne
      · intro p hp
        rcases update_classifier hp with ⟨rfl, hv⟩ | ⟨_, hp'⟩
        · exact Bool.noConfusion hv
        · exact hinv.tifOwn p hp'
      · intro p hp
        rcases update_classifier hp with ⟨rfl, hv⟩ | ⟨_, hp'⟩
        · exact Bool.noConfusion hv
        · exact hinv.noTif p hp'
      · intro hzip
        obtain ⟨r, h1, h2⟩ := hinv.zipTracked hzip
        have hzo := hinv.zipOwn q (classifier_of_pc hq rfl)
        rw [hzo] at h1
        have hrq : q = r := Option.some.inj h1
        rw [← hrq, hq] at h2
        exact Bool.noConfusion h2
      · intro p hp
        rcases update_classifier hp with ⟨rfl, hv⟩ | ⟨_, hp'⟩
        · exact Bool.noConfusion hv
        · exact hinv.fastTif p hp'
      · intro p hp
        exact hinv.lockFile p hp
      · intro p hp
        rcases update_eq_cases hp with ⟨rfl, hv⟩ | ⟨_, hp'⟩
        · exact PC.noConfusion hv
        · exact hinv.relOrder p hp'
  | acqTif q hq hcond =>
      refine ⟨?_, ?_, ?_, ?_, ?_, ?_, ?_⟩
      · intro p hp
        rcases update_classifier hp with ⟨rfl, _⟩ | ⟨_, hp'⟩
        · exact hinv.zipOwn p (classifier_of_pc hq rfl)
        · exact hinv.zipOwn p hp'
      · intro p hp
        rcases update_classifier hp with ⟨rfl, _⟩ | ⟨_, hp'⟩
        · rfl
        · have h0 := hinv.tifOwn p hp'
          rw [hcond] at h0
          exact Option.noConfusion h0
      · intro p hp
        rcases update_classifier hp with ⟨rfl, _⟩ | ⟨_, hp'⟩
        · exact hinv.noTif p (classifier_of_pc hq rfl)
        · exact hinv.noTif p hp'
      · intro hzip
        obtain ⟨r, h1, h2⟩ := hinv.zipTracked hzip
        refine ⟨r, h1, ?_⟩
        rcases eq_or_ne r q with rfl | hne
        · exact update_classifier_self rfl
        · exact update_classifier_other hne h2
      · intro p hp
        rcases update_classifier hp with ⟨rfl, hv⟩ | ⟨_, hp'⟩
        · exact Bool.noConfusion hv
        · exact hinv.fastTif p hp'
      · intro p _
        rfl
      · intro p hp
        rcases update_eq_cases hp with ⟨rfl, hv⟩ | ⟨hne, _⟩
        · exact PC.noConfusion hv
        · exact fun heq => hne (Option.some.inj heq).symm
  | extractValid q hq hv hm =>
      refine ⟨?_, ?_, ?_, ?_, ?_, ?_, ?_⟩
      · intro p hp
        rcases update_classifier hp with ⟨rfl, _⟩ | ⟨_, hp'⟩
        · exact hinv.zipOwn p (classifier_of_pc hq rfl)
        · exact hinv.zipOwn p hp'
      · intro p hp
        rcases update_classifier hp with ⟨rfl, _⟩ | ⟨_, hp'⟩
        · exact hinv.tifOwn p (classifier_of_pc hq rfl)
        · exact hinv.tifOwn p hp'
      · intro p hp
        rcases update_classifier hp with ⟨rfl, hvf⟩ | ⟨hne, hp'⟩
        · exact Bool.noConfusion hvf
        · exact absurd
            (zip_owner_unique hinv (preTifPC_holdsZip hp') (classifier_of_pc hq rfl)) hne
      · intro _
        obtain hzip : c.fs.zip = true ∨ c.fs.zip = false := by
          cases c.fs.zip
          · exact Or.inr rfl
          · exact Or.inl rfl
        rcases hzip with hzip | hzip
        · obtain ⟨r, h1, h2⟩ := hinv.zipTracked hzip
          refine ⟨r, h1, ?_⟩
          rcases eq_or_ne r q with rfl | hne
          · exact update_classifier_self rfl
          · exact update_classifier_other hne h2
        · exact ⟨q, hinv.zipOwn q (classifier_of_pc hq rfl), update_classifier_self rfl⟩
      · intro p _
        rfl
      · intro p hp
        exact hinv.lockFile p hp
      · intro p hp
        rcases update_eq_cases hp with ⟨rfl, hvf⟩ | ⟨_, hp'⟩
        · exact PC.noConfusion hvf
        · exact hinv.relOrder p hp'
  | extractMissing q hq hv hm =>
      refine ⟨?_, ?_, ?_, ?_, ?_, ?_, ?_⟩
      · intro p hp
        rcases update_classifier hp with ⟨rfl, _⟩ | ⟨_, hp'⟩
        · exact hinv.zipOwn p (classifier_of_pc hq rfl)
        · exact hinv.zipOwn p hp'
      · intro p hp
        rcases update_classifier hp with ⟨rfl, _⟩ | ⟨_, hp'⟩
        · exact hinv.tifOwn p (classifier_of_pc hq rfl)
        · exact hinv.tifOwn p hp'
      · intro p hp
        rcases update_classifier hp with ⟨rfl, hvf⟩ | ⟨_, hp'⟩
        · exact Bool.noConfusion hvf
        · exact hinv.noTif p hp'
      · intro hzip
        obtain ⟨r, h1, h2⟩ := hinv.zipTracked hzip
        refine ⟨r, h1, ?_⟩
        rcases eq_or_ne r q with rfl | hne
        · exact update_classifier_self rfl
        · exact update_classifier_other hne h2
      · intro p hp
        rcases update_classifier hp with ⟨rfl, hvf⟩ | ⟨_, hp'⟩
        · exact Bool.noConfusion hvf
        · exact hinv.fastTif p hp'
      · intro p hp
        exact hinv.lockFile p hp
      · intro p hp
        rcases update_eq_cases hp with ⟨rfl, hvf⟩ | ⟨_, hp'⟩
        · exact PC.noConfusion hvf
        · exact hinv.relOrder p hp'
  | extractInvalid q hq hv =>
      refine ⟨?_, ?_, ?_, ?_, ?_, ?_, ?_⟩
      · intro p hp
        rcases update_classifier hp with ⟨rfl, _⟩ | ⟨_, hp'⟩
        · exact hinv.zipOwn p (classifier_of_pc hq rfl)
        · exact hinv.zipOwn p hp'
      · intro p hp
        rcases update_classifier hp with ⟨rfl, _⟩ | ⟨_, hp'⟩
        · exact hinv.tifOwn p (classifier_of_pc hq rfl)
        · exact hinv.tifOwn p hp'
      · intro p hp
        rcases update_classifier hp with ⟨rfl, hvf⟩ | ⟨_, hp'⟩
        · exact Bool.noConfusion hvf
        · exact hinv.noTif p hp'
      · intro hzip
        obtain ⟨r, h1, h2⟩ := hinv.zipTracked hzip
        refine ⟨r, h1, ?_⟩
        rcases eq_or_ne r q with rfl | hne
        · exact update_classifier_self rfl
        · exact update_classifier_other hne h2
      · intro p hp
        rcases update_classifier hp with ⟨rfl, hvf⟩ | ⟨_, hp'⟩
        · exact Bool.noConfusion hvf
        · exact hinv.fastTif p hp'
      · intro p hp
        exact hinv.lockFile p hp
      · intro p hp
        rcases update_eq_cases hp with ⟨rfl, hvf⟩ | ⟨_, hp'⟩
        · exact PC.noConfusion hvf
        · exact hinv.relOrder p hp'
  | rmZip q hq =>
      refine ⟨?_, ?_, ?_, ?_, ?_, ?_, ?_⟩
      · intro p hp
        rcases update_classifier hp with ⟨rfl, _⟩ | ⟨_, hp'⟩
        · exact hinv.zipOwn p (classifier_of_pc hq rfl)
        · exact hinv.zipOwn p hp'
      · intro p hp
        rcases update_classifier hp with ⟨rfl, _⟩ | ⟨_, hp'⟩
        · exact hinv.tifOwn p (classifier_of_pc hq rfl)
        · exact hinv.tifOwn p hp'
      · intro p hp
        rcases update_classifier hp with ⟨rfl, hvf⟩ | ⟨_, hp'⟩
        · exact Bool.noConfusion hvf
        · exact hinv.noTif p hp'
      · intro hzip
        exact Bool.noConfusion hzip
      · intro p hp
        rcases update_classifier hp with ⟨rfl, hvf⟩ | ⟨_, hp'⟩
        · exact Bool.noConfusion hvf
        · exact hinv.fastTif p hp'
      · intro p hp
        exact hinv.lockFile p hp
      · intro p hp
        rcases update_eq_cases hp with ⟨rfl, hvf⟩ | ⟨_, hp'⟩
        · exact PC.noConfusion hvf
        · exact hinv.relOrder p hp'
  | relTif q hq =>
      refine ⟨?_, ?_, ?_, ?_, ?_, ?_, ?_⟩
      · intro p hp
        rcases update_classifier hp with ⟨rfl, _⟩ | ⟨_, hp'⟩
        · exact hinv.zipOwn p (classifier_of_pc hq rfl)
        · exact hinv.zipOwn p hp'
      · intro p hp
        rcases update_classifier hp with ⟨rfl, hvf⟩ | ⟨hne, hp'⟩
        · exact Bool.noConfusion hvf
        · exact absurd (tif_owner_unique hinv hp' (classifier_of_pc hq rfl)) hne
      · intro p hp
        rcases update_classifier hp with ⟨rfl, hvf⟩ | ⟨_, hp'⟩
        · exact Bool.noConfusion hvf
        · exact hinv.noTif p hp'
      · intro hzip
        obtain ⟨r, h1, h2⟩ := hinv.zipTracked hzip
        refine ⟨r, h1, ?_⟩
        rcases eq_or_ne r q with rfl | hne
        · rw [hq] at h2
          exact Bool.noConfusion h2
        · exact update_classifier_other hne h2
      · intro p hp
        rcases update_classifier hp with ⟨rfl, hvf⟩ | ⟨_, hp'⟩
        · exact Bool.noConfusion hvf
        · exact hinv.fastTif p hp'
      · intro p hp
        exact Option.noConfusion hp
      · intro p _
        exact fun heq => Option.noConfusion heq
  | relZip q hq =>
      refine ⟨?_, ?_, ?_, ?_, ?_, ?_, ?_⟩
      · intro p hp
        rcases update_classifier hp with ⟨rfl, hvf⟩ | ⟨hne, hp'⟩
        · exact Bool.noConfusion hvf
        · exact absurd (zip_owner_unique hinv hp' (classifier_of_pc hq rfl)) hne
      · intro p hp
        rcases update_classifier hp with ⟨rfl, hvf⟩ | ⟨_, hp'⟩
        · exact Bool.noConfusion hvf
        · exact hinv.tifOwn p hp'
      · intro p hp
        rcases update_classifier hp with ⟨rfl, hvf⟩ | ⟨_, hp'⟩
        · exact Bool.noConfusion hvf
        · exact hinv.noTif p hp'
      · intro hzip
        obtain ⟨r, h1, h2⟩ := hinv.zipTracked hzip
        have hzo := hinv.zipOwn q (classifier_of_pc hq rfl)
        rw [hzo] at h1
        have hrq : q = r := Option.some.inj h1
        rw [← hrq, hq] at h2
        exact Bool.noConfusion h2
      · intro p hp
        rcases update_classifier hp with ⟨rfl, hvf⟩ | ⟨_, hp'⟩
        · exact Bool.noConfusion hvf
        · exact hinv.fastTif p hp'
      · intro p hp
        exact hinv.lockFile p hp
      · intro p hp
        rcases update_eq_cases hp with ⟨rfl, hvf⟩ | ⟨_, hp'⟩
        · exact PC.noConfusion hvf
        · exact hinv.relOrder p hp'

theorem reachable_inv (e : Env) (c : Cfg) (h : Reachable e c) : Inv c := by
  induction h with
  | refl => exact inv_init
  | tail _ hbc ih => exact inv_step ih hbc

theorem update_pc_self {f : Nat → PC} {p : Nat} {v : PC} :
    Function.update f p v p = v := by
  rw [Function.update_same]

theorem update_pc_other {f : Nat → PC} {p q : Nat} {v : PC} (hne : q ≠ p) :
    Function.update f p v q = f q :=
  Function.update_noteq hne _ _

theorem update_pc_or {f : Nat → PC} {p q : Nat} {v : PC} (hne : q ≠ p)
    (h : f q = PC.awaitTifLock ∨ f q = PC.extract) :
    Function.update f p v q = PC.awaitTifLock ∨
      Function.update f p v q = PC.extract := by
  rw [Function.update_noteq hne]
  exact h

theorem invOK_step {c c' : Cfg} (hinv : Inv c) (hok : InvOK c)
    (hs : Step envOK c c') : InvOK c' := by
  cases hs with
  | startHit q hq hcond =>
      refine ⟨hok.dcount, ?_⟩
      intro hd
      rcases hok.dstate hd with htif | ⟨r, h1, h2⟩
      · exact Or.inl htif
      · rcases eq_or_ne r q with heq | hne
        · rw [heq, hq] at h2
          rcases h2 with h2 | h2 <;> exact PC.noConfusion h2
        · exact Or.inr ⟨r, h1, update_pc_or hne h2⟩
  | startMiss q hq hcond =>
      refine ⟨hok.dcount, ?_⟩
      intro hd
      rcases hok.dstate hd with htif | ⟨r, h1, h2⟩
      · exact Or.inl htif
      · rcases eq_or_ne r q with heq | hne
        · rw [heq, hq] at h2
          rcases h2 with h2 | h2 <;> exact PC.noConfusion h2
        · exact Or.inr ⟨r, h1, update_pc_or hne h2⟩
  | fastLockSeen q hq hcond =>
      refine ⟨hok.dcount, ?_⟩
      intro hd
      rcases hok.dstate hd with htif | ⟨r, h1, h2⟩
      · exact Or.inl htif
      · rcases eq_or_ne r q with heq | hne
        · rw [heq, hq] at h2
          rcases h2 with h2 | h2 <;> exact PC.noConfusion h2
        · exact Or.inr ⟨r, h1, update_pc_or hne h2⟩
  | fastLockAbsent q hq hcond =>
      refine ⟨hok.dcount, ?_⟩
      intro hd
      rcases hok.dstate hd with htif | ⟨r, h1, h2⟩
      · exact Or.inl htif
      · rcases eq_or_ne r q with heq | hne
        · rw [heq, hq] at h2
          rcases h2 with h2 | h2 <;> exact PC.noConfusion h2
        · exact Or.inr ⟨r, h1, update_pc_or hne h2⟩
  | fastAcqTif q hq hcond =>
      refine ⟨hok.dcount, ?_⟩
      intro hd
      rcases hok.dstate hd with htif | ⟨r, h1, h2⟩
      · exact Or.inl htif
      · rcases eq_or_ne r q with heq | hne
        · rw [heq, hq] at h2
          rcases h2 with h2 | h2 <;> exact PC.noConfusion h2
        · exact Or.inr ⟨r, h1, update_pc_or hne h2⟩
  | fastRelTif q hq =>
      refine ⟨hok.dcount, ?_⟩
      intro hd
      rcases hok.dstate hd with htif | ⟨r, h1, h2⟩
      · exact Or.inl htif
      · rcases eq_or_ne r q with heq | hne
        · rw [heq, hq] at h2
          rcases h2 with h2 | h2 <;> exact PC.noConfusion h2
        · exact Or.inr ⟨r, h1, update_pc_or hne h2⟩
  | acqZip q hq hcond =>
      refine ⟨hok.dcount, ?_⟩
      intro hd
      rcases hok.dstate hd with htif | ⟨r, h1, _⟩
      · exact Or.inl htif
      · rw [hcond] at h1
        exact Option.noConfusion h1
  | recheckHit q hq hcond =>
      refine ⟨hok.dcount, ?_⟩
      intro hd
      rcases hok.dstate hd with htif | ⟨r, h1, h2⟩
      · exact Or.inl htif
      · have hzq := hinv.zipOwn q (classifier_of_pc hq rfl)
        rw [hzq] at h1
        have heq : q = r := Option.some.inj h1
        rw [← heq, hq] at h2
        rcases h2 with h2 | h2 <;> exact PC.noConfusion h2
  | recheckMiss q hq hcond =>
      refine ⟨hok.dcount, ?_⟩
      intro hd
      rcases hok.dstate hd with htif | ⟨r, h1, h2⟩
      · rw [hcond] at htif
        exact Bool.noConfusion htif
      · have hzq := hinv.zipOwn q (classifier_of_pc hq rfl)
        rw [hzq] at h1
        have heq : q = r := Option.some.inj h1
        rw [← heq, hq] at h2
        rcases h2 with h2 | h2 <;> exact PC.noConfusion h2
  | fetchOk q hq hcond =>
      have hzero : c.fs.downloads = 0 := by
        rcases Nat.le_one_iff_eq_zero_or_eq_one.mp hok.dcount with h0 | h1
        · exact h0
        · exfalso
          rcases hok.dstate h1 with htif | ⟨r, hr1, hr2⟩
          · have := hinv.noTif q (classifier_of_pc hq rfl)
            rw [this] at htif
            exact Bool.noConfusion htif
          · have hzq := hinv.zipOwn q (classifier_of_pc hq rfl)
            rw [hzq] at hr1
            have heq : q = r := Option.some.inj hr1
            rw [← heq, hq] at hr2
            rcases hr2 with hr2 | hr2 <;> exact PC.noConfusion hr2
      constructor
      · show c.fs.downloads + 1 ≤ 1
        rw [hzero]
      · intro _
        exact Or.inr ⟨q, hinv.zipOwn q (classifier_of_pc hq rfl),
          Or.inl update_pc_self⟩
  | fetchFail q hq hcond =>
      exact absurd hcond (by decide)
  | acqTif q hq hcond =>
      refine ⟨hok.dcount, ?_⟩
      intro hd
      rcases hok.dstate hd with htif | ⟨r, h1, h2⟩
      · exact Or.inl htif
      · rcases eq_or_ne r q with heq | hne
        · rw [heq] at h1
          exact Or.inr ⟨q, h1, Or.inr update_pc_self⟩
        · exact Or.inr ⟨r, h1, update_pc_or hne h2⟩
  | extractValid q hq hv hm =>
      refine ⟨hok.dcount, ?_⟩
      intro _
      exact Or.inl rfl
  | extractMissing q hq hv hm =>
      exact absurd hm (by decide)
  | extractInvalid q hq hv =>
      exact absurd hv (by decide)
  | rmZip q hq =>
      refine ⟨hok.dcount, ?_⟩
      intro hd
      rcases hok.dstate hd with htif | ⟨r, h1, h2⟩
      · exact Or.inl htif
      · have hzq := hinv.zipOwn q (classifier_of_pc hq rfl)
        rw [hzq] at h1
        have heq : q = r := Option.some.inj h1
        rw [← heq, hq] at h2
        rcases h2 with h2 | h2 <;> exact PC.noConfusion h2
  | relTif q hq =>
      refine ⟨hok.dcount, ?_⟩
      intro hd
      rcases hok.dstate hd with htif | ⟨r, h1, h2⟩
      · exact Or.inl htif
      · have hzq := hinv.zipOwn q (classifier_of_pc hq rfl)
        rw [hzq] at h1
        have heq : q = r := Option.some.inj h1
        rw [← heq, hq] at h2
        rcases h2 with h2 | h2 <;> exact PC.noConfusion h2
  | relZip q hq =>
      refine ⟨hok.dcount, ?_⟩
      intro hd
      rcases hok.dstate hd with htif | ⟨r, h1, h2⟩
      · exact Or.inl htif
      · have hzq := hinv.zipOwn q (classifier_of_pc hq rfl)
        rw [hzq] at h1
        have heq : q = r := Option.some.inj h1
        rw [← heq, hq] at h2
        rcases h2 with h2 | h2 <;> exact PC.noConfusion h2

theorem invOK_init : InvOK initCfg :=
  ⟨Nat.zero_le 1, fun hd => Nat.noConfusion hd⟩

theorem reachable_invOK (c : Cfg) (h : Reachable envOK c) : Inv c ∧ InvOK c := by
  induction h with
  | refl => exact ⟨inv_init, invOK_init⟩
  | tail _ hbc ih => exact ⟨inv_step ih.1 hbc, invOK_step ih.1 ih.2 hbc⟩

/-! ### Reachability of the concrete executions -/

theorem w1_reach : Reachable envOK w1 :=
  Relation.ReflTransGen.tail Relation.ReflTransGen.refl
    (Step.startMiss w0 0 rfl rfl)

theorem w2_reach : Reachable envOK w2 :=
  Relation.ReflTransGen.tail w1_reach (Step.acqZip w1 0 rfl rfl)

theorem w3_reach : Reachable envOK w3 :=
  Relation.ReflTransGen.tail w2_reach (Step.recheckMiss w2 0 rfl rfl)

theorem w4_reach : Reachable envOK w4 :=
  Relation.ReflTransGen.tail w3_reach (Step.fetchOk w3 0 rfl rfl)

theorem w5_reach : Reachable envOK w5 :=
  Relation.ReflTransGen.tail w4_reach (Step.acqTif w4 0 rfl rfl)

theorem w6_reach : Reachable envOK w6 :=
  Relation.ReflTransGen.tail w5_reach (Step.extractValid w5 0 rfl rfl rfl)

theorem w7_reach : Reachable envOK w7 :=
  Relation.ReflTransGen.tail w6_reach (Step.rmZip w6 0 rfl)

theorem w8_reach : Reachable envOK w8 :=
  Relation.ReflTransGen.tail w7_reach (Step.relTif w7 0 rfl)

theorem w9_reach : Reachable envOK w9 :=
  Relation.ReflTransGen.tail w8_reach (Step.relZip w8 0 rfl)

theorem b1_reach : Reachable envBad b1 :=
  Relation.ReflTransGen.tail Relation.ReflTransGen.refl
    (Step.startMiss b0 0 rfl rfl)

theorem b2_reach : Reachable envBad b2 :=
  Relation.ReflTransGen.tail b1_reach (Step.startMiss b1 1 rfl rfl)

theorem b3_reach : Reachable envBad b3 :=
  Relation.ReflTransGen.tail b2_reach (Step.acqZip b2 0 rfl rfl)

theorem b4_reach : Reachable envBad b4 :=
  Relation.ReflTransGen.tail b3_reach (Step.recheckMiss b3 0 rfl rfl)

theorem b5_reach : Reachable envBad b5 :=
  Relation.ReflTransGen.tail b4_reach (Step.fetchOk b4 0 rfl rfl)

theorem b6_reach : Reachable envBad b6 :=
  Relation.ReflTransGen.tail b5_reach (Step.acqTif b5 0 rfl rfl)

theorem b7_reach : Reachable envBad b7 :=
  Relation.ReflTransGen.tail b6_reach (Step.extractInvalid b6 0 rfl rfl)

theorem b8_reach : Reachable envBad b8 :=
  Relation.ReflTransGen.tail b7_reach (Step.rmZip b7 0 rfl)

theorem b9_reach : Reachable envBad b9 :=
  Relation.ReflTransGen.tail b8_reach (Step.relTif b8 0 rfl)

theorem b10_reach : Reachable envBad b10 :=
  Relation.ReflTransGen.tail b9_reach (Step.relZip b9 0 rfl)

theorem b11_reach : Reachable envBad b11 :=
  Relation.ReflTransGen.tail b10_reach (Step.acqZip b10 1 rfl rfl)

theorem b12_reach : Reachable envBad b12 :=
  Relation.ReflTransGen.tail b11_reach (Step.recheckMiss b11 1 rfl rfl)

theorem b13_reach : Reachable envBad b13 :=
  Relation.ReflTransGen.tail b12_reach (Step.fetchOk b12 1 rfl rfl)

/-! ### Claim theorems -/

/-- C1 (amended): for any number of concurrent invocations of `get_srtm_tile`
with the same tile and output directory on an initially empty cache, PROVIDED
every fetch succeeds and the downloaded blob is a valid archive containing the
expected member (`envOK`), the Fetcher is invoked at most once across all of
them: in every reachable configuration at most one download has happened. -/
theorem at_most_one_download (c : Cfg) (hr : Reachable envOK c) :
    c.fs.downloads ≤ 1 :=
  (reachable_invOK c hr).2.dcount

/-- Witness for C1: the completed single-process run is reachable and
performed exactly one download, satisfying the bound. -/
theorem at_most_one_download_witness :
    Reachable envOK w9 ∧ w9.fs.downloads ≤ 1 :=
  ⟨w9_reach, at_most_one_download w9 w9_reach⟩

/-- Counterexample to C1 as stated: with the same tile, directory and an
initially empty cache, if the remote blob is not a valid archive (`envBad`) a
first process downloads, extracts nothing, cleans up and returns; a second
concurrent process then acquires the zip lock, re-checks, finds no artifact
and downloads AGAIN: the Fetcher runs twice. -/
theorem double_download_counterexample :
    Reachable envBad b13 ∧ b13.fs.downloads = 2 :=
  ⟨b13_reach, rfl⟩

/-- C3: a process that holds the download lock at the re-check (line 102) and
finds the final artifact present can only step by releasing the download lock
and returning (`PC.done Ret.ok`); that step performs no download (the counter
is unchanged) and does not touch the extract lock.  Steps of other processes
leave it at the re-check. -/
theorem recheck_short_circuit (e : Env) (c c' : Cfg) (p : Nat)
    (hp : c.procs p = PC.recheck) (ht : c.fs.tif = true) (hs : Step e c c') :
    c'.procs p = c.procs p ∨
      (c'.procs p = PC.done Ret.ok ∧ c'.fs.zipLockHeld = none ∧
        c'.fs.downloads = c.fs.downloads ∧
        c'.fs.tifLockHeld = c.fs.tifLockHeld) := by
  cases hs with
  | startHit q hq hcond =>
      rcases eq_or_ne p q with rfl | hne
      · rw [hq] at hp
        exact PC.noConfusion hp
      · exact Or.inl (update_pc_other hne)
  | startMiss q hq hcond =>
      rcases eq_or_ne p q with rfl | hne
      · rw [hq] at hp
        exact PC.noConfusion hp
      · exact Or.inl (update_pc_other hne)
  | fastLockSeen q hq hcond =>
      rcases eq_or_ne p q with rfl | hne
      · rw [hq] at hp
        exact PC.noConfusion hp
      · exact Or.inl (update_pc_other hne)
  | fastLockAbsent q hq hcond =>
      rcases eq_or_ne p q with rfl | hne
      · rw [hq] at hp
        exact PC.noConfusion hp
      · exact Or.inl (update_pc_other hne)
  | fastAcqTif q hq hcond =>
      rcases eq_or_ne p q with rfl | hne
      · rw [hq] at hp
        exact PC.noConfusion hp
      · exact Or.inl (update_pc_other hne)
  | fastRelTif q hq =>
      rcases eq_or_ne p q with rfl | hne
      · rw [hq] at hp
        exact PC.noConfusion hp
      · exact Or.inl (update_pc_other hne)
  | acqZip q hq hcond =>
      rcases eq_or_ne p q with rfl | hne
      · rw [hq] at hp
        exact PC.noConfusion hp
      · exact Or.inl (update_pc_other hne)
  | recheckHit q hq hcond =>
      rcases eq_or_ne p q with rfl | hne
      · exact Or.inr ⟨update_pc_self, rfl, rfl, rfl⟩
      · exact Or.inl (update_pc_other hne)
  | recheckMiss q hq hcond =>
      rcases eq_or_ne p q with rfl | hne
      · rw [hcond] at ht
        exact Bool.noConfusion ht
      · exact Or.inl (update_pc_other hne)
  | fetchOk q hq hcond =>
      rcases eq_or_ne p q with rfl | hne
      · rw [hq] at hp
        exact PC.noConfusion hp
      · exact Or.inl (update_pc_other hne)
  | fetchFail q hq hcond =>
      rcases eq_or_ne p q with rfl | hne
      · rw [hq] at hp
        exact PC.noConfusion hp
      · exact Or.inl (update_pc_other hne)
  | acqTif q hq hcond =>
      rcases eq_or_ne p q with rfl | hne
      · rw [hq] at hp
        exact PC.noConfusion hp
      · exact Or.inl (update_pc_other hne)
  | extractValid q hq hv hm =>
      rcases eq_or_ne p q with rfl | hne
      · rw [hq] at hp
        exact PC.noConfusion hp
      · exact Or.inl (update_pc_other hne)
  | extractMissing q hq hv hm =>
      rcases eq_or_ne p q with rfl | hne
      · rw [hq] at hp
        exact PC.noConfusion hp
      · exact Or.inl (update_pc_other hne)
  | extractInvalid q hq hv =>
      rcases eq_or_ne p q with rfl | hne
      · rw [hq] at hp
        exact PC.noConfusion hp
      · exact Or.inl (update_pc_other hne)
  | rmZip q hq =>
      rcases eq_or_ne p q with rfl | hne
      · rw [hq] at hp
        exact PC.noConfusion hp
      · exact Or.inl (update_pc_other hne)
  | relTif q hq =>
      rcases eq_or_ne p q with rfl | hne
      · rw [hq] at hp
        exact PC.noConfusion hp
      · exact Or.inl (update_pc_other hne)
  | relZip q hq =>
      rcases eq_or_ne p q with rfl | hne
      · rw [hq] at hp
        exact PC.noConfusion hp
      · exact Or.inl (update_pc_other hne)

/-- Witness for C3: with the artifact appeared while process 0 waited for the
download lock, its re-check step releases the lock and finishes, with the
download counter and the extract lock untouched. -/
theorem recheck_short_circuit_witness :
    (cRecheck.procs 0 = PC.recheck ∧ cRecheck.fs.tif = true) ∧
      (cRecheck'.procs 0 = cRecheck.procs 0 ∨
        (cRecheck'.procs 0 = PC.done Ret.ok ∧ cRecheck'.fs.zipLockHeld = none ∧
          cRecheck'.fs.downloads = cRecheck.fs.downloads ∧
          cRecheck'.fs.tifLockHeld = cRecheck.fs.tifLockHeld)) :=
  ⟨⟨rfl, rfl⟩, recheck_short_circuit envOK cRecheck cRecheck' 0 rfl rfl
    (Step.recheckHit cRecheck 0 rfl rfl)⟩

theorem zipHolderPC_holdsZip {pc : PC} (h : zipHolderPC pc = true) :
    holdsZipPC pc = true := by
  revert h
  cases pc <;> try decide
  rename_i r
  cases r <;> decide

/-- C8 (amended): starting from the empty cache, whenever a call completes
with a normal return (`PC.done Ret.ok`, covering the cached, downloaded and
unavailable outcomes, which all return `None`), the archive file does not
exist on disk at that moment.  (A call that dies on `KeyError` is an error
exit and leaves the archive behind; see the counterexample.) -/
theorem archive_absent_at_return (e : Env) (c c' : Cfg) (p : Nat)
    (hr : Reachable e c) (hs : Step e c c')
    (h1 : c'.procs p = PC.done Ret.ok) (h2 : c.procs p ≠ PC.done Ret.ok) :
    c'.fs.zip = false := by
  have hinv := reachable_inv e c hr
  cases hs with
  | startHit q hq hcond =>
      rcases update_eq_cases h1 with ⟨rfl, hv1⟩ | ⟨_, hv1⟩
      · exact PC.noConfusion hv1
      · exact absurd hv1 h2
  | startMiss q hq hcond =>
      rcases update_eq_cases h1 with ⟨rfl, hv1⟩ | ⟨_, hv1⟩
      · exact PC.noConfusion hv1
      · exact absurd hv1 h2
  | fastLockSeen q hq hcond =>
      rcases update_eq_cases h1 with ⟨rfl, hv1⟩ | ⟨_, hv1⟩
      · exact PC.noConfusion hv1
      · exact absurd hv1 h2
  | fastLockAbsent q hq hcond =>
      rcases update_eq_cases h1 with ⟨rfl, _⟩ | ⟨_, hv1⟩
      · cases hcz : c.fs.zip with
        | false => exact rfl
        | true =>
            obtain ⟨r, hr1, hr2⟩ := hinv.zipTracked hcz
            rcases zipHolderPC_cases hr2 with h4 | h4 | h4 | h4
            · have htf := hinv.noTif r (classifier_of_pc h4 rfl)
              have htt := hinv.fastTif p (classifier_of_pc hq rfl)
              rw [htf] at htt
              exact Bool.noConfusion htt
            · have htf := hinv.noTif r (classifier_of_pc h4 rfl)
              have htt := hinv.fastTif p (classifier_of_pc hq rfl)
              rw [htf] at htt
              exact Bool.noConfusion htt
            · have h5 := hinv.tifOwn r (classifier_of_pc h4 rfl)
              have h6 := hinv.lockFile r h5
              rw [hcond] at h6
              exact Bool.noConfusion h6
            · have h5 := hinv.tifOwn r (classifier_of_pc h4 rfl)
              have h6 := hinv.lockFile r h5
              rw [hcond] at h6
              exact Bool.noConfusion h6
      · exact absurd hv1 h2
  | fastAcqTif q hq hcond =>
      rcases update_eq_cases h1 with ⟨rfl, hv1⟩ | ⟨_, hv1⟩
      · exact PC.noConfusion hv1
      · exact absurd hv1 h2
  | fastRelTif q hq =>
      rcases update_eq_cases h1 with ⟨rfl, _⟩ | ⟨_, hv1⟩
      · cases hcz : c.fs.zip with
        | false => exact rfl
        | true =>
            obtain ⟨r, hr1, hr2⟩ := hinv.zipTracked hcz
            rcases zipHolderPC_cases hr2 with h4 | h4 | h4 | h4
            · have htf := hinv.noTif r (classifier_of_pc h4 rfl)
              have htt := hinv.fastTif p (classifier_of_pc hq rfl)
              rw [htf] at htt
              exact Bool.noConfusion htt
            · have htf := hinv.noTif r (classifier_of_pc h4 rfl)
              have htt := hinv.fastTif p (classifier_of_pc hq rfl)
              rw [htf] at htt
              exact Bool.noConfusion htt
            · have heq := tif_owner_unique hinv
                (classifier_of_pc h4 rfl) (classifier_of_pc hq rfl)
              rw [heq, hq] at h4
              exact PC.noConfusion h4
            · have heq := tif_owner_unique hinv
                (classifier_of_pc h4 rfl) (classifier_of_pc hq rfl)
              rw [heq, hq] at h4
              exact PC.noConfusion h4
      · exact absurd hv1 h2
  | acqZip q hq hcond =>
      rcases update_eq_cases h1 with ⟨rfl, hv1⟩ | ⟨_, hv1⟩
      · exact PC.noConfusion hv1
      · exact absurd hv1 h2
  | recheckHit q hq hcond =>
      rcases update_eq_cases h1 with ⟨rfl, _⟩ | ⟨_, hv1⟩
      · cases hcz : c.fs.zip with
        | false => exact rfl
        | true =>
            obtain ⟨r, hr1, hr2⟩ := hinv.zipTracked hcz
            have heq := zip_owner_unique hinv
              (zipHolderPC_holdsZip hr2) (classifier_of_pc hq rfl)
            rw [heq, hq] at hr2
            exact Bool.noConfusion hr2
      · exact absurd hv1 h2
  | recheckMiss q hq hcond =>
      rcases update_eq_cases h1 with ⟨rfl, hv1⟩ | ⟨_, hv1⟩
      · exact PC.noConfusion hv1
      · exact absurd hv1 h2
  | fetchOk q hq hcond =>
      rcases update_eq_cases h1 with ⟨rfl, hv1⟩ | ⟨_, hv1⟩
      · exact PC.noConfusion hv1
      · exact absurd hv1 h2
  | fetchFail q hq hcond =>
      rcases update_eq_cases h1 with ⟨rfl, hv1⟩ | ⟨_, hv1⟩
      · exact Ret.noConfusion (PC.done.inj hv1)
      · exact absurd hv1 h2
  | acqTif q hq hcond =>
      rcases update_eq_cases h1 with ⟨rfl, hv1⟩ | ⟨_, hv1⟩
      · exact PC.noConfusion hv1
      · exact absurd hv1 h2
  | extractValid q hq hv hm =>
      rcases update_eq_cases h1 with ⟨rfl, hv1⟩ | ⟨_, hv1⟩
      · exact PC.noConfusion hv1
      · exact absurd hv1 h2
  | extractMissing q hq hv hm =>
      rcases update_eq_cases h1 with ⟨rfl, hv1⟩ | ⟨_, hv1⟩
      · exact Ret.noConfusion (PC.done.inj hv1)
      · exact absurd hv1 h2
  | extractInvalid q hq hv =>
      rcases update_eq_cases h1 with ⟨rfl, hv1⟩ | ⟨_, hv1⟩
      · exact PC.noConfusion hv1
      · exact absurd hv1 h2
  | rmZip q hq =>
      rcases update_eq_cases h1 with ⟨rfl, hv1⟩ | ⟨_, hv1⟩
      · exact PC.noConfusion hv1
      · exact absurd hv1 h2
  | relTif q hq =>
      rcases update_eq_cases h1 with ⟨rfl, hv1⟩ | ⟨_, hv1⟩
      · exact PC.noConfusion hv1
      · exact absurd hv1 h2
  | relZip q hq =>
      rcases update_eq_cases h1 with ⟨rfl, _⟩ | ⟨_, hv1⟩
      · cases hcz : c.fs.zip with
        | false => exact rfl
        | true =>
            obtain ⟨r, hr1, hr2⟩ := hinv.zipTracked hcz
            have heq := zip_owner_unique hinv
              (zipHolderPC_holdsZip hr2) (classifier_of_pc hq rfl)
            rw [heq, hq] at hr2
            exact Bool.noConfusion hr2
      · exact absurd hv1 h2

/-- Witness for C8: the completed single-process run ends with a normal
return and no archive on disk. -/
theorem archive_absent_at_return_witness :
    w9.procs 0 = PC.done Ret.ok ∧ w9.fs.zip = false :=
  ⟨rfl, archive_absent_at_return envOK w8 w9 0 w8_reach
    (Step.relZip w8 0 rfl) rfl (by decide)⟩

/-- C9: in every reachable configuration, a process about to release the
download lock (line 137) no longer holds the extract lock: on the full path
the extract lock (released on line 136) is given up strictly before the
download lock. -/
theorem extract_lock_released_before_zip (e : Env) (c : Cfg) (p : Nat)
    (hr : Reachable e c) (hp : c.procs p = PC.releaseZip) :
    c.fs.tifLockHeld ≠ some p :=
  (reachable_inv e c hr).relOrder p hp

/-- Witness for C9: process 0 of the concrete run, after releasing the
extract lock and before releasing the download lock. -/
theorem extract_lock_released_before_zip_witness :
    w8.procs 0 = PC.releaseZip ∧ w8.fs.tifLockHeld ≠ some 0 :=
  ⟨rfl, extract_lock_released_before_zip envOK w8 0 w8_reach rfl⟩

/-- C4: on the fast path (artifact present at entry), if the extract lock
file exists on disk the call acquires and immediately releases the extract
lock and returns success; if it does not exist the call returns success with
no lock operation at all; in both cases the download lock is never acquired
and neither the Fetcher nor the Extractor runs, no lock is held on exit, and
the filesystem is unchanged (apart from the lock file the acquire creates). -/
theorem fast_path_no_work (e : Env) (s : SeqIn) (h : s.tif = true) :
    (s.tifLockFile = true →
      (get_srtm_tile e s).trace = [Ev.acqTif, Ev.relTif]) ∧
    (s.tifLockFile = false → (get_srtm_tile e s).trace = []) ∧
    (get_srtm_tile e s).exc = none ∧
    Ev.acqZip ∉ (get_srtm_tile e s).trace ∧
    Ev.fetch ∉ (get_srtm_tile e s).trace ∧
    Ev.extractAttempt ∉ (get_srtm_tile e s).trace ∧
    (get_srtm_tile e s).zipHeld = false ∧
    (get_srtm_tile e s).tifHeld = false ∧
    (get_srtm_tile e s).tif = s.tif ∧
    (get_srtm_tile e s).zip = s.zip := by
  cases hb : s.tifLockFile <;> simp [get_srtm_tile, h, hb]

/-- Witness for C4: a fully cached state with the lock file present. -/
theorem fast_path_no_work_witness :
    (⟨true, false, true⟩ : SeqIn).tif = true ∧
      Ev.fetch ∉ (get_srtm_tile ⟨false, true, true⟩ ⟨true, false, true⟩).trace ∧
      (get_srtm_tile ⟨false, true, true⟩ ⟨true, false, true⟩).trace
        = [Ev.acqTif, Ev.relTif] :=
  ⟨rfl,
   (fast_path_no_work ⟨false, true, true⟩ ⟨true, false, true⟩ rfl).2.2.2.2.1,
   (fast_path_no_work ⟨false, true, true⟩ ⟨true, false, true⟩ rfl).1 rfl⟩

/-- Counterexample to C5 as stated: with no final artifact and the archive
already on disk, the call still invokes the Fetcher (lines 111-113 only print
a message; line 116 downloads unconditionally). -/
theorem fetch_despite_existing_zip :
    (⟨false, true, false⟩ : SeqIn).zip = true ∧
      (⟨false, true, false⟩ : SeqIn).tif = false ∧
      Ev.fetch ∈ (get_srtm_tile ⟨false, true, true⟩ ⟨false, true, false⟩).trace := by
  refine ⟨rfl, rfl, ?_⟩
  decide

/-- C5 (amended): past the re-check, the Fetcher is invoked unconditionally,
whether or not the archive file already exists; a pre-existing archive only
triggers a log message and is overwritten by the fresh download, which is
what extraction then operates on. -/
theorem fetch_always_invoked (e : Env) (s : SeqIn) (h : s.tif = false) :
    Ev.fetch ∈ (get_srtm_tile e s).trace := by
  cases hf : e.fetchFails <;> cases hv : e.valid <;> cases hm : e.member <;>
    simp [get_srtm_tile, h, hf, hv, hm]

/-- Witness for C5 (amended): the archive exists and the download happens
anyway. -/
theorem fetch_always_invoked_witness :
    (⟨false, true, false⟩ : SeqIn).tif = false ∧
      Ev.fetch ∈ (get_srtm_tile envOK ⟨false, true, false⟩).trace :=
  ⟨rfl, fetch_always_invoked envOK ⟨false, true, false⟩ rfl⟩

/-- C6 (amended): a Fetcher transport failure (`ConnectionError`/`RetryError`,
the only exceptions the `except` clause on line 117 names) propagates
unchanged with the download lock — the only lock held at that point —
released before propagation.  An exception of any other type raised after a
lock was acquired, such as the `KeyError` from `z.extract` when the expected
member is absent from a valid archive, propagates with BOTH locks still
held. -/
theorem error_lock_handling (e : Env) (s : SeqIn) (h : s.tif = false) :
    (e.fetchFails = true →
      (get_srtm_tile e s).exc = some Exc.connOrRetry ∧
      (get_srtm_tile e s).zipHeld = false ∧
      (get_srtm_tile e s).tifHeld = false ∧
      (get_srtm_tile e s).trace = [Ev.acqZip, Ev.fetch, Ev.relZip]) ∧
    (e.fetchFails = false → e.valid = true → e.member = false →
      (get_srtm_tile e s).exc = some Exc.keyError ∧
      (get_srtm_tile e s).zipHeld = true ∧
      (get_srtm_tile e s).tifHeld = true) := by
  cases hf : e.fetchFails <;> cases hv : e.valid <;> cases hm : e.member <;>
    simp [get_srtm_tile, h, hf, hv, hm]

/-- Witness for C6 (amended): a failing fetch on an empty cache. -/
theorem error_lock_handling_witness :
    (⟨false, false, false⟩ : SeqIn).tif = false ∧
      (get_srtm_tile ⟨true, true, true⟩ ⟨false, false, false⟩).exc
        = some Exc.connOrRetry ∧
      (get_srtm_tile ⟨true, true, true⟩ ⟨false, false, false⟩).zipHeld = false :=
  ⟨rfl,
   ((error_lock_handling ⟨true, true, true⟩ ⟨false, false, false⟩ rfl).1 rfl).1,
   ((error_lock_handling ⟨true, true, true⟩ ⟨false, false, false⟩ rfl).1 rfl).2.1⟩

/-- Counterexample to C6 as stated: the `KeyError` raised by `z.extract`
(valid archive, member absent) propagates while the call still holds both the
download lock and the extract lock — not every lock is released before
propagation. -/
theorem exception_with_locks_held :
    (get_srtm_tile ⟨false, true, false⟩ ⟨false, false, false⟩).exc
        = some Exc.keyError ∧
      (get_srtm_tile ⟨false, true, false⟩ ⟨false, false, false⟩).zipHeld = true ∧
      (get_srtm_tile ⟨false, true, false⟩ ⟨false, false, false⟩).tifHeld = true := by
  decide

/-- Counterexample to C7 as stated: `get_srtm_tile` returns `None` on every
non-raising path, so the cached run, the fresh-download run and the
invalid-archive run all return the same value — there is no distinguishable
`Cached` / `Downloaded` / `Unavailable` outcome value. -/
theorem no_distinguishable_outcome :
    (get_srtm_tile ⟨false, true, true⟩ ⟨true, false, false⟩).exc
        = (get_srtm_tile ⟨false, true, true⟩ ⟨false, false, false⟩).exc ∧
      (get_srtm_tile ⟨false, true, true⟩ ⟨false, false, false⟩).exc
        = (get_srtm_tile ⟨false, false, true⟩ ⟨false, false, false⟩).exc := by
  decide

/-- C7 (amended): `get_srtm_tile` returns no outcome value (always `None`);
in particular, when the downloaded blob is not a valid archive the call
completes normally — it does not raise, removes the archive, and leaves no
final artifact — indistinguishable by return value from the other outcomes. -/
theorem invalid_archive_no_raise (e : Env) (s : SeqIn) (h : s.tif = false)
    (hf : e.fetchFails = false) (hv : e.valid = false) :
    (get_srtm_tile e s).exc = none ∧
      (get_srtm_tile e s).tif = false ∧
      (get_srtm_tile e s).zip = false := by
  simp [get_srtm_tile, h, hf, hv]

/-- Witness for C7 (amended): an invalid blob on an empty cache. -/
theorem invalid_archive_no_raise_witness :
    (⟨false, false, false⟩ : SeqIn).tif = false ∧
      envBad.fetchFails = false ∧ envBad.valid = false ∧
      (get_srtm_tile envBad ⟨false, false, false⟩).exc = none :=
  ⟨rfl, rfl, rfl,
   (invalid_archive_no_raise envBad ⟨false, false, false⟩ rfl rfl rfl).1⟩

/-- Counterexample to C8 as stated: with a valid archive missing the expected
member, extraction is attempted (line 126 reached) but the `KeyError` from
line 128 aborts the call before `os.remove` on line 133: the archive file is
NOT deleted. -/
theorem extraction_attempted_zip_kept :
    Ev.extractAttempt
        ∈ (get_srtm_tile ⟨false, true, false⟩ ⟨false, false, false⟩).trace ∧
      (get_srtm_tile ⟨false, true, false⟩ ⟨false, false, false⟩).zip = true := by
  decide

/-- Counterexample to C2 as stated: the two lock paths computed by
`get_srtm_tile` are identical for two distinct tile identifiers with the same
output directory — the lock names `srtm_zip.lock` / `srtm_tif.lock` are
constants, not derived from the tile identifier. -/
theorem lock_paths_not_tile_scoped :
    lock_paths ("srtm_01_01") ("/home/user") ("/cwd") ("/tmp/srtm")
        = lock_paths ("srtm_02_02") ("/home/user") ("/cwd") ("/tmp/srtm") ∧
      ("srtm_01_01" : String) ≠ ("srtm_02_02" : String) := by
  exact ⟨rfl, by decide⟩

/-- C2 (amended): the download-lock and extract-lock file paths depend only
on the output directory; every tile identifier yields the same pair, so all
tiles in one directory share the same two locks. -/
theorem lock_paths_shared (t1 t2 home cwd out_dir : String) :
    lock_paths t1 home cwd out_dir = lock_paths t2 home cwd out_dir := rfl

/-! ### Path-normalization lemmas for C10 -/

theorem abspath_of_absolute {cwd p : String} (h : p.data.head? = some '/') :
    abspath cwd p = p := by
  simp [abspath, h]

theorem abspath_ne_of_relative {cwd p : String}
    (h : p.data.head? ≠ some '/') : abspath cwd p ≠ p := by
  simp only [abspath, if_neg h]
  intro heq
  have hlen := congrArg String.length heq
  rw [String.length_append, String.length_append] at hlen
  have hone : ("/" : String).length = 1 := rfl
  omega

theorem head_append_of_absolute {a b : String}
    (h : a.data.head? = some '/') : (a ++ b).data.head? = some '/' := by
  cases hd : a.data with
  | nil =>
      rw [hd] at h
      exact Option.noConfusion h
  | cons x xs =>
      rw [hd] at h
      simp only [List.head?_cons, Option.some.injEq] at h
      rw [String.data_append, hd, h]
      rfl

theorem tilde_slash_ne_tilde {p : String} (h : p.data.take 2 = ['~', '/']) :
    p ≠ "~" := by
  intro heq
  rw [heq] at h
  exact absurd h (by decide)

theorem expanduser_tilde_slash {home p : String}
    (h : p.data.take 2 = ['~', '/']) :
    expanduser home p = home ++ String.mk (p.data.drop 1) := by
  simp only [expanduser, if_neg (tilde_slash_ne_tilde h), if_pos h]

theorem head_of_tilde_slash {p : String} (h : p.data.take 2 = ['~', '/']) :
    p.data.head? = some '~' := by
  cases hd : p.data with
  | nil =>
      rw [hd] at h
      exact absurd h (by decide)
  | cons x xs =>
      rw [hd] at h
      simp only [List.take_succ_cons, List.cons.injEq] at h
      rw [h.1]
      rfl

theorem output_dir_ne (home cwd out : String)
    (hh : home.data.head? = some '/')
    (hcase : out = "~" ∨ out.data.take 2 = ['~', '/'] ∨
      out.data.head? ≠ some '/') :
    output_dir home cwd out ≠ out := by
  by_cases h1 : out = "~"
  · subst h1
    have he : expanduser home ("~") = home := by
      simp [expanduser]
    rw [output_dir, he, abspath_of_absolute hh]
    intro heq
    rw [heq] at hh
    exact absurd hh (by decide)
  · by_cases h2 : out.data.take 2 = ['~', '/']
    · intro heq
      have hodir : output_dir home cwd out
          = home ++ String.mk (out.data.drop 1) := by
        rw [output_dir, expanduser_tilde_slash h2,
          abspath_of_absolute (head_append_of_absolute hh)]
      rw [hodir] at heq
      have h3 : (home ++ String.mk (out.data.drop 1)).data.head?
          = out.data.head? := by
        rw [heq]
      rw [head_append_of_absolute hh, head_of_tilde_slash h2] at h3
      exact absurd (Option.some.inj h3) (by decide)
    · have hrel : out.data.head? ≠ some '/' := by
        rcases hcase with hc | hc | hc
        · exact absurd hc h1
        · exact absurd hc h2
        · exact hc
      have hexp : expanduser home out = out := by
        simp only [expanduser, if_neg h1, if_neg h2]
      rw [output_dir, hexp]
      exact abspath_ne_of_relative hrel

/-- C10 (amended): the final-artifact existence checks and the two lock file
paths are rooted at the normalized directory `abspath(expanduser(out_dir))`
(line 74), while the archive path (line 97) and the extraction target
(line 128) are rooted at the raw `out_dir`.  When the normalized form equals
the raw string, all of these live in the same directory; when `out_dir` is
exactly `~`, begins with `~/`, or is not absolute (given an absolute home
directory), the normalized and raw strings differ, so the check/lock paths
and the archive/extraction paths are rooted at different directory strings.
(An absolute `out_dir` merely CONTAINING `~` in a non-leading position is
left unchanged by the normalization — see the counterexample.) -/
theorem artifact_vs_archive_dirs (home cwd out t : String)
    (hh : home.data.head? = some '/') :
    (output_dir home cwd out = out →
      tif_path home cwd out t = joinPath out (t ++ ".tif") ∧
      srtm_zip_download_lock home cwd out = joinPath out ("srtm_zip.lock") ∧
      srtm_tif_write_lock home cwd out = joinPath out ("srtm_tif.lock") ∧
      zip_path out t = joinPath (extract_dir out) (t ++ ".zip")) ∧
    ((out = "~" ∨ out.data.take 2 = ['~', '/'] ∨
        out.data.head? ≠ some '/') →
      output_dir home cwd out ≠ out) := by
  constructor
  · intro heq
    refine ⟨?_, ?_, ?_, rfl⟩ <;>
      simp [tif_path, srtm_zip_download_lock, srtm_tif_write_lock, heq]
  · exact output_dir_ne home cwd out hh

/-- Witness for C10 (amended): a relative output directory is changed by the
normalization, so the artifact check and the archive live under different
directory strings. -/
theorem artifact_vs_archive_dirs_witness :
    ("/home/user" : String).data.head? = some '/' ∧
      output_dir ("/home/user") ("/cwd") ("data") ≠ "data" :=
  ⟨by decide,
   (artifact_vs_archive_dirs ("/home/user") ("/cwd") ("data") ("srtm_41_03")
      (by decide)).2 (Or.inr (Or.inr (by decide)))⟩

/-- Counterexample to C10 as stated: an out_dir CONTAINING `~` in a
non-leading position, such as `/tmp/~`, is absolute and is left unchanged by
`abspath(expanduser(·))`, so the artifact check and the archive/extraction
paths are rooted at the SAME directory, contradicting the claim that any
out_dir containing `~` makes them refer to different directories. -/
theorem tilde_inside_same_dir :
    output_dir ("/home/user") ("/cwd") ("/tmp/~") = "/tmp/~" ∧
      '~' ∈ ("/tmp/~" : String).data := by
  constructor
  · rfl
  · decide

end Srtm4
